import Mathlib

/-
  Shallow embedding of the Cloud Reminder System backend (server.cpp).

  The server persists reminders as a JSON array in a single backing file
  and exposes three operations: List (GET /api/reminders), Add
  (POST /api/add) and Delete (POST /api/delete).  We model the JSON
  values manipulated by the handlers, the backing file and its transient
  .tmp sibling as an explicit disk state, and the environment conditions
  (file open / rename success) that decide the save path taken.
-/

namespace CloudReminder

/-- JSON values as handled by the JSON library used in server.cpp.
Objects are association lists of key/value pairs; the handlers only ever
read a key, test key membership, or assign a key, so list order is
otherwise irrelevant. -/
inductive JVal where
  | null : JVal
  | bool : Bool → JVal
  | num : Int → JVal
  | str : String → JVal
  | arr : List JVal → JVal
  | obj : List (String × JVal) → JVal


/-- Models json::is_array. -/
def JVal.isArray : JVal → Bool
  | .arr _ => true
  | _ => false

/-- Models json::is_object. -/
def JVal.isObject : JVal → Bool
  | .obj _ => true
  | _ => false

/-- Models json::is_null. -/
def JVal.isNull : JVal → Bool
  | .null => true
  | _ => false

/-- Models json::contains(key): key membership in an object, false on
non-objects. -/
def jcontains : JVal → String → Bool
  | .obj fields, k => fields.any (fun p => p.1 == k)
  | _, _ => false

/-- Models reading j[key] on an object whose key is known to be present
(every read in server.cpp is guarded by a contains check); returns null
for a missing key or a non-object. -/
def getKey : JVal → String → JVal
  | .obj fields, k =>
      match fields.find? (fun p => p.1 == k) with
      | some p => p.2
      | none => .null
  | _, _ => .null

/-- Models the assignment j[key] = v on an object (the only assignment in
server.cpp is body[id] = make_id() on a value already checked to be an
object); a non-object is returned unchanged. -/
def setKey : JVal → String → JVal → JVal
  | .obj fields, k, v =>
      if fields.any (fun p => p.1 == k) then
        .obj (fields.map (fun p => if p.1 == k then (p.1, v) else p))
      else
        .obj (fields ++ [(k, v)])
  | j, _, _ => j

/-- Models json::get of a string: returns the string payload, and throws
a type error (modelled as Except.error) on every non-string value. -/
def getStr : JVal → Except String String
  | .str s => .ok s
  | _ => .error "type_error"

/-- Models make_id (server.cpp lines 30-35): concatenates the literal
"id", the current time in milliseconds and rand() % 10000. -/
def make_id (ms : Nat) (r : Nat) : String :=
  "id" ++ toString ms ++ toString (r % 10000)

/-- State of the backing file reminders.json: absent, present but not
parseable as JSON, or present and parsing to a JSON value. -/
inductive FileContent where
  | absent : FileContent
  | corrupt : FileContent
  | parsed : JVal → FileContent


/-- The disk as seen by the server: the backing file and whether the
transient .tmp sibling file exists. -/
structure Disk where
  main : FileContent
  tmpExists : Bool


/-- Environment conditions deciding the save path in save_reminders:
whether the .tmp file can be opened for writing, whether the rename onto
the target succeeds, and whether the target itself can be opened for the
direct-overwrite fallback. -/
structure SaveEnv where
  tmpOpenOk : Bool
  renameOk : Bool
  mainOpenOk : Bool


/-- Models load_reminders (server.cpp lines 38-57).  If the file is
absent it is created holding an empty array and an empty array is
returned.  If parsing fails, or the parsed value is not an array, an
empty array is returned and no error propagates.  Returns the array
elements together with the resulting disk state. -/
def load_reminders : Disk → List JVal × Disk
  | ⟨.absent, t⟩ => ([], ⟨.parsed (.arr []), t⟩)
  | ⟨.corrupt, t⟩ => ([], ⟨.corrupt, t⟩)
  | ⟨.parsed (.arr xs), t⟩ => (xs, ⟨.parsed (.arr xs), t⟩)
  | ⟨.parsed j, t⟩ => ([], ⟨.parsed j, t⟩)

/-- Models save_reminders (server.cpp lines 60-78).  Writes the array to
the .tmp sibling (failure if it cannot be opened), then renames it onto
the target; if the rename fails, falls back to overwriting the target in
place (failure if it cannot be opened).  The rename removes the .tmp
file; the fallback path does not. -/
def save_reminders (env : SaveEnv) (xs : List JVal) (d : Disk) : Bool × Disk :=
  if !env.tmpOpenOk then (false, d)
  else if env.renameOk then (true, ⟨.parsed (.arr xs), false⟩)
  else if !env.mainOpenOk then (false, ⟨d.main, true⟩)
  else (true, ⟨.parsed (.arr xs), true⟩)

/-- Models valid_reminder_shape (server.cpp lines 88-94): the candidate
must be an object containing the keys title, day, month and year. -/
def valid_reminder_shape (r : JVal) : Bool :=
  r.isObject && jcontains r "title" && jcontains r "day" &&
    jcontains r "month" && jcontains r "year"

/-- Outcome of a service operation, as translated to an HTTP response by
the adapter: 200 with a JSON body, 400 validation error, 404 not found,
or 500 storage error. -/
inductive ApiResult where
  | ok : JVal → ApiResult
  | validationError : String → ApiResult
  | notFound : String → ApiResult
  | storageError : String → ApiResult


/-- Models the id-assignment step of the add handler (server.cpp lines
136-138): a fresh id is assigned when the id key is missing, its value
is null, or json::get of the string is empty; json::get throws on a
present non-null non-string value, which the surrounding try/catch turns
into the invalid json response. -/
def idAssign (body : JVal) (genId : String) : Except String JVal :=
  if !(jcontains body "id") then .ok (setKey body "id" (.str genId))
  else if (getKey body "id").isNull then .ok (setKey body "id" (.str genId))
  else
    match getStr (getKey body "id") with
    | .error e => .error e
    | .ok s =>
        if s.isEmpty then .ok (setKey body "id" (.str genId))
        else .ok body

/-- Models the POST /api/add handler after JSON parsing of the request
body (server.cpp lines 118-155): shape validation, id assignment, load,
append, save; a json type error anywhere in the try block yields the
invalid json response with the disk unchanged by this handler. -/
def addReminder (genId : String) (body : JVal) (env : SaveEnv) (d : Disk) :
    ApiResult × Disk :=
  if !valid_reminder_shape body then (.validationError "invalid reminder shape", d)
  else
    match idAssign body genId with
    | .error _ => (.validationError "invalid json", d)
    | .ok body2 =>
        let ld := load_reminders d
        let sv := save_reminders env (ld.1 ++ [body2]) ld.2
        if !sv.1 then (.storageError "failed to save", sv.2)
        else (.ok body2, sv.2)

/-- Models the scan loop of the delete handler (server.cpp lines
177-183): walk the array in order; a record without an id key is
skipped; on a record with an id key, json::get of the string throws on a
non-string value (Except.error); the first record whose string id equals
the requested id is erased and the loop stops.  Returns none when no
record matched. -/
def eraseFirstById (id : String) : List JVal → Except String (Option (List JVal))
  | [] => .ok none
  | r :: rest =>
      if jcontains r "id" then
        match getStr (getKey r "id") with
        | .error e => .error e
        | .ok s =>
            if s == id then .ok (some rest)
            else
              match eraseFirstById id rest with
              | .error e => .error e
              | .ok none => .ok none
              | .ok (some ys) => .ok (some (r :: ys))
      else
        match eraseFirstById id rest with
        | .error e => .error e
        | .ok none => .ok none
        | .ok (some ys) => .ok (some (r :: ys))

/-- Models the POST /api/delete handler after JSON parsing of the
request body (server.cpp lines 158-201): requires an id key; json::get
of the string throws on a non-string id (caught as invalid json); loads
the array, scans for the first match, answers not found when none
matched, otherwise saves the shrunken array. -/
def deleteReminder (reqBody : JVal) (env : SaveEnv) (d : Disk) :
    ApiResult × Disk :=
  if !(jcontains reqBody "id") then (.validationError "missing id", d)
  else
    match getStr (getKey reqBody "id") with
    | .error _ => (.validationError "invalid json", d)
    | .ok id =>
        let ld := load_reminders d
        match eraseFirstById id ld.1 with
        | .error _ => (.validationError "invalid json", ld.2)
        | .ok none => (.notFound "id not found", ld.2)
        | .ok (some ys) =>
            let sv := save_reminders env ys ld.2
            if !sv.1 then (.storageError "failed to save after delete", sv.2)
            else (.ok (.obj [("ok", .bool true)]), sv.2)

/-- Models json::is_string. -/
def JVal.isStr : JVal → Bool
  | .str _ => true
  | _ => false

/-- The condition of server.cpp line 136 under which the add handler
assigns a fresh id: the id key is absent, its value is null, or its
value is the empty string. -/
def needsFreshId (body : JVal) : Bool :=
  !(jcontains body "id") || (getKey body "id").isNull ||
    (match getKey body "id" with
     | .str s => s.isEmpty
     | _ => false)

/-- The candidate carries an id key whose value is neither null nor a
string; on such a value json::get of the string throws inside the add
handler. -/
def hasNonStringId (body : JVal) : Bool :=
  jcontains body "id" && !(getKey body "id").isNull &&
    !(getKey body "id").isStr

/-- A record the delete scan passes over without effect for the
requested id: it has no id key, or its id is a string different from
the requested one. -/
def skipsScan (id : String) (q : JVal) : Bool :=
  !(jcontains q "id") ||
    (match getKey q "id" with
     | .str s => !(s == id)
     | _ => false)

/-- Save environment in which every file operation succeeds. -/
def envAllOk : SaveEnv := ⟨true, true, true⟩

/-- Disk whose backing file holds the empty array. -/
def diskEmpty : Disk := ⟨.parsed (.arr []), false⟩

/-- A shape-valid candidate carrying the caller-supplied id "abc". -/
def bodyWithId : JVal :=
  .obj [("title", .str "t"), ("day", .num 5), ("month", .num 3),
        ("year", .num 2025), ("id", .str "abc")]

/-- A shape-valid candidate whose id key holds the number 123. -/
def bodyNumId : JVal :=
  .obj [("title", .str "t"), ("day", .num 5), ("month", .num 3),
        ("year", .num 2025), ("id", .num 123)]

/-- A shape-valid candidate carrying the caller-supplied id "x". -/
def bodyIdX : JVal :=
  .obj [("title", .str "t"), ("day", .num 1), ("month", .num 2),
        ("year", .num 3), ("id", .str "x")]

/-- A stored record whose id key holds the number 123. -/
def recNumId : JVal := .obj [("id", .num 123)]

/-- A stored record with string id "a". -/
def recStrA : JVal := .obj [("id", .str "a"), ("title", .str "t")]

/-- A stored record without an id key. -/
def recNoId : JVal := .obj [("title", .str "other")]

lemma load_parsed_arr (xs : List JVal) (t : Bool) :
    load_reminders ⟨.parsed (.arr xs), t⟩ = (xs, ⟨.parsed (.arr xs), t⟩) := rfl

lemma load_fst_of_main (d : Disk) (xs : List JVal)
    (h : d.main = .parsed (.arr xs)) : (load_reminders d).1 = xs := by
  obtain ⟨m, t⟩ := d
  simp only at h
  subst h
  rfl

lemma save_ok_of_env (env : SaveEnv) (xs : List JVal) (d : Disk)
    (htmp : env.tmpOpenOk = true) (hren : env.renameOk = true) :
    save_reminders env xs d = (true, ⟨.parsed (.arr xs), false⟩) := by
  simp [save_reminders, htmp, hren]

lemma save_main_of_true (env : SaveEnv) (xs : List JVal) (d : Disk)
    (h : (save_reminders env xs d).1 = true) :
    (save_reminders env xs d).2.main = .parsed (.arr xs) := by
  unfold save_reminders at *
  cases htmp : env.tmpOpenOk <;> simp [htmp] at h ⊢
  cases hren : env.renameOk <;> simp [hren] at h ⊢
  cases hm : env.mainOpenOk <;> simp [hm] at h ⊢

lemma getKey_str_contains (body : JVal) (k s : String)
    (h : getKey body k = .str s) : jcontains body k = true := by
  cases body <;> simp [getKey] at h
  next fields =>
    cases hf : fields.find? (fun p => p.1 == k) with
    | none => rw [hf] at h; exact absurd h (by simp)
    | some p =>
        have hmem := List.mem_of_find?_eq_some hf
        have hp := List.find?_some hf
        simp only [jcontains, List.any_eq_true]
        exact ⟨p, hmem, hp⟩

lemma isObject_exists (body : JVal) (h : body.isObject = true) :
    ∃ fields, body = .obj fields := by
  cases body <;> simp [JVal.isObject] at h ⊢

lemma find_map_replace (fields : List (String × JVal)) (k : String) (v : JVal)
    (h : fields.any (fun p => p.1 == k) = true) :
    ∃ k2, (fields.map (fun p => if p.1 == k then (p.1, v) else p)).find?
        (fun p => p.1 == k) = some (k2, v) := by
  induction fields with
  | nil => simp at h
  | cons p fs ih =>
      simp only [List.map_cons]
      by_cases hk : (p.1 == k) = true
      · refine ⟨p.1, ?_⟩
        rw [if_pos hk]
        exact List.find?_cons_of_pos _ hk
      · simp only [List.any_cons, Bool.or_eq_true] at h
        rcases h with h | h
        · exact absurd h hk
        · obtain ⟨k2, hk2⟩ := ih h
          refine ⟨k2, ?_⟩
          have hk' : (p.1 == k) = false := by
            cases hpk : (p.1 == k) with
            | true => exact absurd hpk hk
            | false => rfl
          rw [if_neg hk]
          simp only [List.find?, hk', hk2]

lemma find_append_miss (fields : List (String × JVal)) (k : String) (v : JVal)
    (h : fields.any (fun p => p.1 == k) = false) :
    (fields ++ [(k, v)]).find? (fun p => p.1 == k) = some (k, v) := by
  induction fields with
  | nil => simp [List.find?]
  | cons p fs ih =>
      simp only [List.any_cons, Bool.or_eq_false_iff] at h
      simp [List.find?, h.1, ih h.2]

lemma getKey_setKey (fields : List (String × JVal)) (k : String) (v : JVal) :
    getKey (setKey (.obj fields) k v) k = v := by
  unfold setKey
  by_cases h : fields.any (fun p => p.1 == k) = true
  · simp only [h, if_true, getKey]
    obtain ⟨k2, hk2⟩ := find_map_replace fields k v h
    rw [hk2]
  · simp only [Bool.not_eq_true] at h
    simp only [h, Bool.false_eq_true, if_false, getKey]
    rw [find_append_miss fields k v h]

lemma idAssign_fresh (body : JVal) (genId : String)
    (h : needsFreshId body = true) :
    idAssign body genId = .ok (setKey body "id" (.str genId)) := by
  unfold idAssign
  unfold needsFreshId at h
  cases hc : jcontains body "id" with
  | false => simp [hc]
  | true =>
      simp only [hc, Bool.not_true, Bool.false_or] at h ⊢
      cases hk : getKey body "id" <;>
        simp [hk, JVal.isNull, getStr] at h ⊢
      next s => simp [h]

lemma idAssign_keep (body : JVal) (genId : String) (s : String)
    (h : getKey body "id" = .str s) (hs : s ≠ "") :
    idAssign body genId = .ok body := by
  have hc := getKey_str_contains body "id" s h
  unfold idAssign
  simp [hc, h, JVal.isNull, getStr, String.isEmpty_iff, hs]

lemma idAssign_throws (body : JVal) (genId : String)
    (h : hasNonStringId body = true) :
    idAssign body genId = .error "type_error" := by
  unfold hasNonStringId at h
  simp only [Bool.and_eq_true, Bool.not_eq_true'] at h
  obtain ⟨⟨hc, hn⟩, hs⟩ := h
  unfold idAssign
  cases hk : getKey body "id" <;>
    simp [hk, JVal.isNull, JVal.isStr, getStr, hc] at hn hs ⊢

lemma add_ok_path (genId : String) (body body2 : JVal) (env : SaveEnv)
    (d : Disk) (hshape : valid_reminder_shape body = true)
    (hid : idAssign body genId = .ok body2)
    (htmp : env.tmpOpenOk = true) (hren : env.renameOk = true) :
    addReminder genId body env d =
      (.ok body2, ⟨.parsed (.arr ((load_reminders d).1 ++ [body2])), false⟩) := by
  unfold addReminder
  rw [hshape, hid]
  simp [save_ok_of_env env _ _ htmp hren]

lemma eraseFirstById_cons (id : String) (q : JVal) (rest : List JVal) :
    eraseFirstById id (q :: rest) =
      if jcontains q "id" then
        match getStr (getKey q "id") with
        | .error e => .error e
        | .ok s =>
            if s == id then .ok (some rest)
            else
              match eraseFirstById id rest with
              | .error e => .error e
              | .ok none => .ok none
              | .ok (some ys) => .ok (some (q :: ys))
      else
        match eraseFirstById id rest with
        | .error e => .error e
        | .ok none => .ok none
        | .ok (some ys) => .ok (some (q :: ys)) := rfl

lemma erase_skip (id : String) (q : JVal) (rest : List JVal)
    (h : skipsScan id q = true) :
    eraseFirstById id (q :: rest) =
      (eraseFirstById id rest).map (Option.map (fun ys => q :: ys)) := by
  unfold skipsScan at h
  rw [eraseFirstById_cons]
  cases hc : jcontains q "id" with
  | false =>
      simp only [hc, Bool.false_eq_true, if_false]
      cases he : eraseFirstById id rest with
      | error e => rfl
      | ok o => cases o <;> rfl
  | true =>
      simp only [hc, Bool.not_true, Bool.false_or] at h
      simp only [hc, if_true]
      cases hk : getKey q "id" with
      | str s =>
          simp only [hk] at h
          simp only [hk, getStr]
          cases hs : (s == id) with
          | true => rw [hs] at h; exact absurd h (by simp)
          | false =>
              simp only [hs, Bool.false_eq_true, if_false]
              cases he : eraseFirstById id rest with
              | error e => rfl
              | ok o => cases o <;> rfl
      | null => simp [hk] at h
      | bool b => simp [hk] at h
      | num n => simp [hk] at h
      | arr xs => simp [hk] at h
      | obj fs => simp [hk] at h

lemma erase_none_of_all (id : String) (xs : List JVal)
    (h : xs.all (skipsScan id) = true) :
    eraseFirstById id xs = .ok none := by
  induction xs with
  | nil => rfl
  | cons q rest ih =>
      simp only [List.all_cons, Bool.and_eq_true] at h
      rw [erase_skip id q rest h.1, ih h.2]
      rfl

lemma erase_first_match (id : String) (pre post : List JVal) (r : JVal)
    (hpre : pre.all (skipsScan id) = true)
    (hr : jcontains r "id" = true) (hid : getKey r "id" = .str id) :
    eraseFirstById id (pre ++ r :: post) = .ok (some (pre ++ post)) := by
  induction pre with
  | nil =>
      simp only [List.nil_append]
      unfold eraseFirstById
      simp [hr, hid, getStr]
  | cons q qs ih =>
      simp only [List.all_cons, Bool.and_eq_true] at hpre
      rw [List.cons_append, erase_skip id q _ hpre.1, ih hpre.2]
      rfl

/-- C1: after a successful Add returning record stored, List (a load with
no intervening mutation) returns the previous array with exactly the
stored record appended, so it contains the added record with the id it
was returned with and all its fields equal. -/
theorem add_list_roundtrip (genId : String) (body stored : JVal)
    (env : SaveEnv) (d d2 : Disk)
    (h : addReminder genId body env d = (.ok stored, d2)) :
    (load_reminders d2).1 = (load_reminders d).1 ++ [stored] ∧
      stored ∈ (load_reminders d2).1 := by
  have hmain : d2.main = .parsed (.arr ((load_reminders d).1 ++ [stored])) := by
    unfold addReminder at h
    cases hshape : valid_reminder_shape body with
    | false => simp [hshape] at h
    | true =>
        simp only [hshape, Bool.not_true, Bool.false_eq_true, if_false] at h
        cases hid : idAssign body genId with
        | error e => rw [hid] at h; simp at h
        | ok body2 =>
            rw [hid] at h
            simp only at h
            cases hb : (save_reminders env ((load_reminders d).1 ++ [body2])
                (load_reminders d).2).1 with
            | false => rw [hb] at h; simp at h
            | true =>
                rw [hb] at h
                simp only [Bool.not_true, Bool.false_eq_true, if_false] at h
                injection h with h1 h2
                injection h1 with h1
                subst h1
                rw [← h2]
                exact save_main_of_true env _ _ hb
  refine ⟨load_fst_of_main d2 _ hmain, ?_⟩
  rw [load_fst_of_main d2 _ hmain]
  simp

/-- C1 witness: adding the concrete record bodyWithId to the empty store
succeeds and a subsequent List returns exactly that record. -/
theorem add_list_roundtrip_witness :
    (load_reminders (⟨.parsed (.arr [bodyWithId]), false⟩ : Disk)).1
        = (load_reminders diskEmpty).1 ++ [bodyWithId] ∧
      bodyWithId ∈ (load_reminders (⟨.parsed (.arr [bodyWithId]), false⟩ : Disk)).1 :=
  add_list_roundtrip "g" bodyWithId bodyWithId envAllOk diskEmpty
    ⟨.parsed (.arr [bodyWithId]), false⟩ rfl

/-- C2 counterexample: bodyNumId is a shape-valid candidate whose
supplied id is present, non-null and non-empty (the number 123), so the
claim as stated says Add preserves that id in the returned and stored
record; instead the handler throws a json type error on it and answers
invalid json, storing nothing. -/
theorem add_nonstring_id_cex :
    addReminder "idGen" bodyNumId envAllOk diskEmpty
      = (.validationError "invalid json", diskEmpty) := rfl

/-- C2 amended: under a successful save environment, Add assigns the
freshly generated id exactly when the id is absent, null or the empty
string; a supplied non-empty string id is preserved unchanged in the
returned and stored record; a supplied non-null non-string id is
rejected with the invalid json type error and nothing is stored. -/
theorem add_id_assignment (genId : String) (body : JVal) (env : SaveEnv)
    (d : Disk) (hshape : valid_reminder_shape body = true)
    (htmp : env.tmpOpenOk = true) (hren : env.renameOk = true) :
    (needsFreshId body = true →
      addReminder genId body env d =
        (.ok (setKey body "id" (.str genId)),
         ⟨.parsed (.arr ((load_reminders d).1 ++ [setKey body "id" (.str genId)])),
          false⟩) ∧
      getKey (setKey body "id" (.str genId)) "id" = .str genId) ∧
    (∀ s, getKey body "id" = .str s → s ≠ "" →
      addReminder genId body env d =
        (.ok body, ⟨.parsed (.arr ((load_reminders d).1 ++ [body])), false⟩)) ∧
    (hasNonStringId body = true →
      addReminder genId body env d = (.validationError "invalid json", d)) := by
  refine ⟨fun hf => ⟨?_, ?_⟩, fun s hs hs2 => ?_, fun hn => ?_⟩
  · exact add_ok_path genId body _ env d hshape (idAssign_fresh body genId hf)
      htmp hren
  · have h' := hshape
    unfold valid_reminder_shape at h'
    rw [Bool.and_eq_true, Bool.and_eq_true, Bool.and_eq_true,
      Bool.and_eq_true] at h'
    obtain ⟨⟨⟨⟨hob, _⟩, _⟩, _⟩, _⟩ := h'
    obtain ⟨fields, hb⟩ := isObject_exists body hob
    subst hb
    exact getKey_setKey fields "id" (.str genId)
  · exact add_ok_path genId body body env d hshape
      (idAssign_keep body genId s hs hs2) htmp hren
  · have hth := idAssign_throws body genId hn
    unfold addReminder
    simp only [hshape, Bool.not_true, Bool.false_eq_true, if_false, hth]

/-- C2 witness: at the concrete candidate bodyWithId with supplied id
"abc", Add preserves the id and stores the record unchanged. -/
theorem add_id_assignment_witness :
    addReminder "g" bodyWithId envAllOk diskEmpty
      = (.ok bodyWithId,
         ⟨.parsed (.arr ((load_reminders diskEmpty).1 ++ [bodyWithId])), false⟩) :=
  (add_id_assignment "g" bodyWithId envAllOk diskEmpty rfl rfl rfl).2.1
    "abc" rfl (by decide)

/-- C3 counterexample: the store holds recNumId (numeric id 123)
followed by recStrA (string id "a"), so it contains a record whose id
equals the requested "a" and the claim as stated says Delete removes
that record; instead the scan throws a json type error on the preceding
numeric id and the handler answers invalid json with the store
unchanged. -/
theorem delete_first_match_cex :
    deleteReminder (.obj [("id", .str "a")]) envAllOk
        ⟨.parsed (.arr [recNumId, recStrA]), false⟩
      = (.validationError "invalid json",
         ⟨.parsed (.arr [recNumId, recStrA]), false⟩) := rfl

/-- C3 amended: when every record before the first match either lacks an
id key or carries a string id different from the requested one, Delete
removes exactly that first matching record and leaves every other record
unchanged and in their original relative order (a non-string id located
before the match instead aborts the scan with a json type error). -/
theorem delete_removes_first_match (id : String) (pre post : List JVal)
    (r : JVal) (env : SaveEnv) (t : Bool)
    (hpre : pre.all (skipsScan id) = true)
    (hr : jcontains r "id" = true) (hid : getKey r "id" = .str id)
    (htmp : env.tmpOpenOk = true) (hren : env.renameOk = true) :
    deleteReminder (.obj [("id", .str id)]) env
        ⟨.parsed (.arr (pre ++ r :: post)), t⟩
      = (.ok (.obj [("ok", .bool true)]),
         ⟨.parsed (.arr (pre ++ post)), false⟩) := by
  unfold deleteReminder
  have h1 : jcontains (JVal.obj [("id", JVal.str id)]) "id" = true := rfl
  have h2 : getKey (JVal.obj [("id", JVal.str id)]) "id" = JVal.str id := rfl
  simp only [h1, Bool.not_true, Bool.false_eq_true, if_false, h2, getStr,
    load_parsed_arr]
  rw [erase_first_match id pre post r hpre hr hid]
  simp only [save_ok_of_env env (pre ++ post) _ htmp hren, Bool.not_true,
    Bool.false_eq_true, if_false]

/-- C3 witness: deleting id "a" from the concrete store holding an
id-less record, then the match, then a numeric-id record, removes
exactly the match and preserves the rest in order. -/
theorem delete_removes_first_match_witness :
    deleteReminder (.obj [("id", .str "a")]) envAllOk
        ⟨.parsed (.arr [recNoId, recStrA, recNumId]), false⟩
      = (.ok (.obj [("ok", .bool true)]),
         ⟨.parsed (.arr [recNoId, recNumId]), false⟩) :=
  delete_removes_first_match "a" [recNoId] [recNumId] recStrA envAllOk false
    rfl rfl rfl rfl rfl

/-- C4 counterexample: the store holds only recNumId, whose id is the
number 123, so no record has an id equal to the requested string "zzz"
and the claim as stated says Delete answers NotFound; instead the scan
throws a json type error on the numeric id and the handler answers
invalid json (the store is still unchanged). -/
theorem delete_not_found_cex :
    deleteReminder (.obj [("id", .str "zzz")]) envAllOk
        ⟨.parsed (.arr [recNumId]), false⟩
      = (.validationError "invalid json",
         ⟨.parsed (.arr [recNumId]), false⟩) := rfl

/-- C4 amended: when every record either lacks an id key or carries a
string id different from the requested one, Delete fails with
NotFoundError (id not found) and performs no save, leaving the stored
array unchanged (a record with a non-string id instead aborts the scan
with a json type error, also without saving). -/
theorem delete_not_found_atomic (id : String) (xs : List JVal)
    (env : SaveEnv) (t : Bool)
    (hall : xs.all (skipsScan id) = true) :
    deleteReminder (.obj [("id", .str id)]) env ⟨.parsed (.arr xs), t⟩
      = (.notFound "id not found", ⟨.parsed (.arr xs), t⟩) := by
  unfold deleteReminder
  have h1 : jcontains (JVal.obj [("id", JVal.str id)]) "id" = true := rfl
  have h2 : getKey (JVal.obj [("id", JVal.str id)]) "id" = JVal.str id := rfl
  simp only [h1, Bool.not_true, Bool.false_eq_true, if_false, h2, getStr,
    load_parsed_arr]
  rw [erase_none_of_all id xs hall]

/-- C4 witness: deleting the absent id "zzz" from the concrete store
holding an id-less record and a record with string id "a" answers
NotFound and leaves the store unchanged. -/
theorem delete_not_found_atomic_witness :
    deleteReminder (.obj [("id", .str "zzz")]) envAllOk
        ⟨.parsed (.arr [recNoId, recStrA]), false⟩
      = (.notFound "id not found",
         ⟨.parsed (.arr [recNoId, recStrA]), false⟩) :=
  delete_not_found_atomic "zzz" [recNoId, recStrA] envAllOk false rfl

/-- C5: when the backing file holds unparseable content, or content that
parses to a non-array JSON value, load (and hence List) returns an empty
array, leaves the disk untouched, and propagates no parse error (the
model is total: no error outcome exists in its type). -/
theorem load_fail_soft (d : Disk)
    (h : d.main = FileContent.corrupt ∨
      ∃ j, d.main = FileContent.parsed j ∧ j.isArray = false) :
    load_reminders d = ([], d) := by
  obtain ⟨m, t⟩ := d
  rcases h with h | ⟨j, h, hj⟩
  · simp only at h
    subst h
    rfl
  · simp only at h
    subst h
    cases j with
    | arr xs => simp [JVal.isArray] at hj
    | null => rfl
    | bool b => rfl
    | num n => rfl
    | str s => rfl
    | obj fs => rfl

/-- C5 witness: loading a disk whose backing file is unparseable returns
the empty array and changes nothing. -/
theorem load_fail_soft_witness :
    load_reminders ⟨.corrupt, false⟩ = ([], ⟨.corrupt, false⟩) :=
  load_fail_soft ⟨.corrupt, false⟩ (Or.inl rfl)

/-- C6: when the backing file is absent, load (and hence List) returns
an empty array and, as its only side effect, creates the backing file
containing the empty JSON array (the tmp flag is untouched). -/
theorem load_creates_backing_file (t : Bool) :
    load_reminders ⟨.absent, t⟩ = ([], ⟨.parsed (.arr []), t⟩) := rfl

/-- C7: the uniqueness invariant is not preserved by the operations.
Starting from the empty store, two Adds each carrying the same supplied
id "x" both succeed, after which List returns two records whose id is
the same non-empty string "x": the add handler performs no uniqueness
check against existing ids, contradicting the stated invariant. -/
theorem add_accepts_duplicate_id :
    (load_reminders
        (addReminder "g2" bodyIdX envAllOk
          (addReminder "g1" bodyIdX envAllOk diskEmpty).2).2).1
        = [bodyIdX, bodyIdX] ∧
      getKey bodyIdX "id" = .str "x" := ⟨rfl, rfl⟩

/-- C8 counterexample: with the rename failing and the target file
writable, save reports success via the direct-overwrite fallback, yet
the transient .tmp sibling persists on disk, contradicting the claim for
the fallback path. -/
theorem save_tmp_persists_cex :
    save_reminders ⟨true, false, true⟩ [] ⟨.parsed (.arr []), false⟩
      = (true, ⟨.parsed (.arr []), true⟩) := rfl

/-- C8 amended: after a save that succeeds through the atomic-rename
path the .tmp sibling does not persist; after a save that succeeds
through the direct-overwrite fallback path the .tmp sibling does
persist, since the fallback never removes it. -/
theorem save_tmp_cleanup (env : SaveEnv) (xs : List JVal) (d : Disk)
    (htmp : env.tmpOpenOk = true) :
    (env.renameOk = true →
      save_reminders env xs d = (true, ⟨.parsed (.arr xs), false⟩)) ∧
    (env.renameOk = false → env.mainOpenOk = true →
      save_reminders env xs d = (true, ⟨.parsed (.arr xs), true⟩)) := by
  refine ⟨fun hr => save_ok_of_env env xs d htmp hr, fun hr hm => ?_⟩
  simp [save_reminders, htmp, hr, hm]

/-- C8 witness: a concrete successful rename-path save after which the
.tmp file is gone. -/
theorem save_tmp_cleanup_witness :
    save_reminders ⟨true, true, true⟩ [] ⟨.corrupt, true⟩
      = (true, ⟨.parsed (.arr []), false⟩) :=
  (save_tmp_cleanup ⟨true, true, true⟩ [] ⟨.corrupt, true⟩ rfl).1 rfl

/-- C9: a Delete request whose id field holds a non-string JSON value
fails with the invalid json validation error (the json type error
surfaced by the handler), not NotFound, and the disk, hence the stored
array, is unchanged. -/
theorem delete_nonstring_request_id (reqBody : JVal) (env : SaveEnv)
    (d : Disk) (hc : jcontains reqBody "id" = true)
    (hs : (getKey reqBody "id").isStr = false) :
    deleteReminder reqBody env d = (.validationError "invalid json", d) := by
  unfold deleteReminder
  simp only [hc, Bool.not_true, Bool.false_eq_true, if_false]
  cases hk : getKey reqBody "id" with
  | str s => rw [hk] at hs; simp [JVal.isStr] at hs
  | null => simp [hk, getStr]
  | bool b => simp [hk, getStr]
  | num n => simp [hk, getStr]
  | arr xs => simp [hk, getStr]
  | obj fs => simp [hk, getStr]

/-- C9 witness: a Delete request carrying the numeric id 1 answers the
invalid json validation error and leaves the empty store unchanged. -/
theorem delete_nonstring_request_id_witness :
    deleteReminder (.obj [("id", .num 1)]) envAllOk diskEmpty
      = (.validationError "invalid json", diskEmpty) :=
  delete_nonstring_request_id (.obj [("id", .num 1)]) envAllOk diskEmpty
    rfl rfl

/-- C10: the delete scan treats a record that lacks an id key as
non-matching and skips it without error: prepending such a record to any
store leaves the outcome of the scan on the rest intact, with the record
kept in place, so the scan is total over arrays containing id-less
records. -/
theorem delete_scan_skips_idless (id : String) (q : JVal)
    (rest : List JVal) (h : jcontains q "id" = false) :
    eraseFirstById id (q :: rest) =
      (eraseFirstById id rest).map (Option.map (fun ys => q :: ys)) :=
  erase_skip id q rest (by simp [skipsScan, h])

/-- C10 witness: the concrete id-less record recNoId is skipped by the
scan for id "a". -/
theorem delete_scan_skips_idless_witness :
    eraseFirstById "a" (recNoId :: [recStrA]) =
      (eraseFirstById "a" [recStrA]).map (Option.map (fun ys => recNoId :: ys)) :=
  delete_scan_skips_idless "a" recNoId [recStrA] rfl

end CloudReminder
